import Mathlib

/-!
Shallow embedding of the bidones delivery API (`src/main.go`) for checking its
natural-language specification.

The MySQL tables become Lean lists inside a `DB` record; each Gin handler's
core logic (validation, SQL reads/writes, transaction commit/rollback) becomes
a pure function `DB → … → Except Err DB`, where returning `.error` models
`tx.Rollback()` — the store is left exactly as before the call.  Monetary
values (`DECIMAL(10,2)` columns, Go `float64` variables) are modelled as `Int`
(a count of cents: the schema fixes two decimals, and the code only ever adds
and multiplies prices, so integer money is exact);
`AUTO_INCREMENT` ids are explicit counters in `DB`; `NOW()` / `TIMESTAMP`
defaults are an explicit `now : Int` parameter.  Status strings are kept in the
source's Spanish: `por_atender` = pending, `asignado` = assigned, `en_camino` =
en_route, `entregado` = delivered, `cancelado` = cancelled.
-/

namespace Aqua

/-- Row of the `products` table (struct `Product` in main.go). -/
structure Product where
  id : Int
  name : String
  capacityLiters : Option ℚ
  price : Int
  isActive : Bool
deriving DecidableEq

/-- Row of the `customer_product_prices` table (struct `CustomerPrice`;
schema in the migration file: PRIMARY KEY (customer_id, product_id),
`created_at` defaulting to the current timestamp). -/
structure CustomerPrice where
  customerId : Int
  productId : Int
  price : Int
  isActive : Bool
  createdAt : Int
deriving DecidableEq

/-- Row of the `orders` table: the persisted columns of struct `Order`
(`total` is not stored — reads compute `subtotal + delivery_fee`). -/
structure OrderRow where
  id : Int
  customerId : Int
  addressId : Int
  assignedDriverId : Option Int
  status : String
  subtotal : Int
  deliveryFee : Int
  notes : Option String
  scheduledAt : Option Int
  deliveredAt : Option Int
  createdAt : Int
deriving DecidableEq

/-- Struct `Order` as returned by reads: the row plus the computed
`(subtotal+delivery_fee) AS total` column. -/
structure Order where
  id : Int
  customerId : Int
  addressId : Int
  assignedDriverId : Option Int
  status : String
  subtotal : Int
  deliveryFee : Int
  total : Int
  notes : Option String
  scheduledAt : Option Int
  deliveredAt : Option Int
  createdAt : Int
deriving DecidableEq

/-- The `SELECT …, (subtotal+delivery_fee) AS total` read of an order row
(used by `getOrderHandler` and `listOrdersHandler`). -/
def orderToRead (o : OrderRow) : Order :=
  { id := o.id, customerId := o.customerId, addressId := o.addressId,
    assignedDriverId := o.assignedDriverId, status := o.status,
    subtotal := o.subtotal, deliveryFee := o.deliveryFee,
    total := o.subtotal + o.deliveryFee,
    notes := o.notes, scheduledAt := o.scheduledAt,
    deliveredAt := o.deliveredAt, createdAt := o.createdAt }

/-- Row of the `order_items` table (stored columns of struct `OrderItem`). -/
structure OrderItem where
  id : Int
  orderId : Int
  productId : Int
  qty : Int
  unitPrice : Int
deriving DecidableEq

/-- Item as returned by `getOrderHandler`: join with `products`, with the
computed `(oi.qty*oi.unit_price) AS line_total` column. -/
structure OrderItemRead where
  id : Int
  orderId : Int
  productId : Int
  qty : Int
  unitPrice : Int
  lineTotal : Int
  productName : String
  capacityLiters : Option ℚ
deriving DecidableEq

/-- Row of the `order_status_history` table (struct `StatusHistory`). -/
structure StatusHistory where
  orderId : Int
  oldStatus : Option String
  newStatus : String
  changedBy : Int
  changedAt : Int
  note : Option String
deriving DecidableEq

/-- Request body of `POST /api/v1/customer_prices` (struct
`UpsertCustomerPriceReq`). -/
structure UpsertCustomerPriceReq where
  customerId : Int
  productId : Int
  price : Int
  isActive : Option Bool
deriving DecidableEq

/-- One item of a creation request (struct `OrderItemReq`). -/
structure OrderItemReq where
  productId : Int
  qty : Int
deriving DecidableEq

/-- Request body of `POST /api/v1/orders` (struct `CreateOrderReq`). -/
structure CreateOrderReq where
  customerId : Int
  addressId : Int
  items : List OrderItemReq
  scheduledAt : Option Int
  notes : Option String
deriving DecidableEq

/-- Request body of `PATCH /api/v1/orders/:id/assign` (struct `AssignOrderReq`). -/
structure AssignOrderReq where
  driverId : Int
deriving DecidableEq

/-- Request body of `PATCH /api/v1/orders/:id/status` (struct `UpdateStatusReq`). -/
structure UpdateStatusReq where
  newStatus : String
  note : Option String
  changedBy : Int
deriving DecidableEq

/-- Request body of `POST /api/v1/products` (struct `CreateProductReq`). -/
structure CreateProductReq where
  name : String
  capacityLiters : Option ℚ
  price : Int
  isActive : Option Bool
deriving DecidableEq

/-- Error responses of the handlers, classified by kind.  `validation` is an
HTTP 400 for a missing/malformed field, `notFound` a 404, `invalidTransition`
the 400 of `updateOrderStatusHandler` (carries both statuses, rendered by
`errMessage`), `notAssignable` the 400 of `assignOrderHandler` for a
non-pending order, `productInvalid` the 400 of `createOrderHandler` when a
line item's price fails to resolve, `internal` a 500. -/
inductive Err where
  | validation (msg : String)
  | notFound (msg : String)
  | invalidTransition (old target : String)
  | notAssignable
  | productInvalid (productId : Int)
  | internal (msg : String)
deriving DecidableEq

/-- The message string each error is rendered with in the JSON response. -/
def errMessage : Err → String
  | .validation m => m
  | .notFound m => m
  | .invalidTransition old target => "transición inválida " ++ old ++ " → " ++ target
  | .notAssignable => "solo pedidos \x27por_atender\x27 pueden asignarse"
  | .productInvalid pid => "producto " ++ toString pid ++ " no válido"
  | .internal m => m

/-- Whether an error is of the spec's `InvalidTransition` kind: the
state-machine rejection of `updateOrderStatusHandler` or the
only-pending-orders-can-be-assigned rejection of `assignOrderHandler`. -/
def Err.isInvalidTransition : Err → Bool
  | .invalidTransition _ _ => true
  | .notAssignable => true
  | _ => false

/-- The persistent store: one list per table, plus the `AUTO_INCREMENT`
counters.  `users` keeps only the ids — the core consults the `users` table
only through `SELECT COUNT(1) … WHERE id=?`. -/
structure DB where
  products : List Product
  customerPrices : List CustomerPrice
  users : List Int
  orders : List OrderRow
  orderItems : List OrderItem
  history : List StatusHistory
  nextProductId : Int
  nextUserId : Int
  nextOrderId : Int
  nextOrderItemId : Int
deriving DecidableEq

/-- Empty database (MySQL AUTO_INCREMENT starts at 1). -/
def initDB : DB :=
  { products := [], customerPrices := [], users := [], orders := [],
    orderItems := [], history := [],
    nextProductId := 1, nextUserId := 1, nextOrderId := 1, nextOrderItemId := 1 }

/-- Insertion step of an insertion sort keyed by `key`, descending. -/
def insertDescBy {α : Type} (key : α → Int) (a : α) : List α → List α
  | [] => [a]
  | b :: l => if key b ≤ key a then a :: b :: l else b :: insertDescBy key a l

/-- `ORDER BY key DESC` modelled as an insertion sort. -/
def sortDescBy {α : Type} (key : α → Int) : List α → List α
  | [] => []
  | a :: l => insertDescBy key a (sortDescBy key l)

/-- Insertion step of an insertion sort keyed by `key`, ascending. -/
def insertAscBy {α : Type} (key : α → Int) (a : α) : List α → List α
  | [] => [a]
  | b :: l => if key a ≤ key b then a :: b :: l else b :: insertAscBy key a l

/-- `ORDER BY key` (ascending) modelled as an insertion sort. -/
def sortAscBy {α : Type} (key : α → Int) : List α → List α
  | [] => []
  | a :: l => insertAscBy key a (sortAscBy key l)

/-- The `LEFT JOIN customer_product_prices cpp ON cpp.product_id = p.id AND
cpp.customer_id = ? AND cpp.is_active = TRUE` lookup shared by all three
effective-price queries: the first row of the override table matching the
(customer, product) key that is active, if any. -/
def findOverride (cpps : List CustomerPrice) (cid pid : Int) : Option CustomerPrice :=
  cpps.find? (fun r => r.productId == pid && r.customerId == cid && r.isActive)

/-- `COALESCE(cpp.price, p.price)`: the override price when an active override
row joined, else the product's base price. -/
def overlayPrice (db : DB) (cid : Int) (p : Product) : Int :=
  match findOverride db.customerPrices cid p.id with
  | some r => r.price
  | none => p.price

/-- The effective-price point read of `createOrderHandler`'s subtotal loop
(lines 623–628): `SELECT COALESCE(cpp.price, p.price) … WHERE p.id=? AND
p.is_active=TRUE`.  `none` models `sql.ErrNoRows` (product absent or
inactive).  Pure read: it takes the `DB` and returns only a price, so storage
is untouched by construction. -/
def resolveEffectivePrice (db : DB) (cid pid : Int) : Option Int :=
  (db.products.find? (fun p => p.id == pid && p.isActive)).map (overlayPrice db cid)

/-- The per-item unit-price point read of `createOrderHandler`'s insert loop
(lines 649–654): same query but `WHERE p.id=?` only — no `p.is_active=TRUE`
filter. -/
def resolveItemUnitPrice (db : DB) (cid pid : Int) : Option Int :=
  (db.products.find? (fun p => p.id == pid)).map (overlayPrice db cid)

/-- `listProductsHandler`: without a customer the active products with base
prices; with `?customer_id=` the same rows with `COALESCE(cpp.price, p.price)`
in the `price` column.  Both variants `ORDER BY p.id`. -/
def listProducts (db : DB) (customerId : Option Int) : List Product :=
  match customerId with
  | none => sortAscBy (fun p => p.id) (db.products.filter (fun p => p.isActive))
  | some cid =>
      sortAscBy (fun p => p.id)
        ((db.products.filter (fun p => p.isActive)).map
          (fun p => { p with price := overlayPrice db cid p }))

/-- Subtotal loop of `createOrderHandler` (lines 620–634):
`subtotal += effPrice * float64(it.Qty)` per item, failing on the first item
whose activity-checked price read returns no row; the error carries that
item's product id (`"producto %d no válido"`). -/
def computeSubtotal (db : DB) (cid : Int) : List OrderItemReq → Except Int Int
  | [] => .ok 0
  | it :: rest =>
    match resolveEffectivePrice db cid it.productId with
    | none => .error it.productId
    | some v => (computeSubtotal db cid rest).map (fun s => v * it.qty + s)

/-- Item-insert loop of `createOrderHandler` (lines 647–663): one
`order_items` row per requested item with the unit price from the
activity-unchecked read, ids drawn from the table's AUTO_INCREMENT counter.
`none` models the 500 when that read returns no row. -/
def buildItems (db : DB) (cid oid : Int) :
    List OrderItemReq → Int → Option (List OrderItem × Int)
  | [], nid => some ([], nid)
  | it :: rest, nid =>
    match resolveItemUnitPrice db cid it.productId with
    | none => none
    | some v =>
      match buildItems db cid oid rest (nid + 1) with
      | none => none
      | some (items, nid') =>
          some ({ id := nid, orderId := oid, productId := it.productId,
                  qty := it.qty, unitPrice := v } :: items, nid')

/-- `createOrderHandler`: validate the three required fields, price every item
(aborting on the first failure), then — only if everything succeeded — commit
the order header (status `por_atender`, delivery fee 0), its items, and the
initial history row in one transaction.  Any `.error` models the
`defer tx.Rollback()` path: nothing is persisted. -/
def createOrder (db : DB) (req : CreateOrderReq) (now : Int) :
    Except Err (DB × Int) :=
  if req.customerId = 0 ∨ req.addressId = 0 ∨ req.items = [] then
    .error (.validation "customer_id, address_id e items requeridos")
  else
    match computeSubtotal db req.customerId req.items with
    | .error pid => .error (.productInvalid pid)
    | .ok subtotal =>
      let oid := db.nextOrderId
      match buildItems db req.customerId oid req.items db.nextOrderItemId with
      | none => .error (.internal "sql: no rows in result set")
      | some (items, nid) =>
        let order : OrderRow :=
          { id := oid, customerId := req.customerId, addressId := req.addressId,
            assignedDriverId := none, status := "por_atender",
            subtotal := subtotal, deliveryFee := 0,
            notes := req.notes, scheduledAt := req.scheduledAt,
            deliveredAt := none, createdAt := now }
        let hist : StatusHistory :=
          { orderId := oid, oldStatus := none, newStatus := "por_atender",
            changedBy := req.customerId, changedAt := now,
            note := some "Pedido creado" }
        .ok ({ db with orders := db.orders ++ [order],
                       orderItems := db.orderItems ++ items,
                       history := db.history ++ [hist],
                       nextOrderId := oid + 1,
                       nextOrderItemId := nid }, oid)

/-- State left by `createOrderHandler`: the committed state on success, the
rolled-back (unchanged) state on any error. -/
def runCreateOrder (db : DB) (req : CreateOrderReq) (now : Int) : DB :=
  match createOrder db req now with
  | .ok (db', _) => db'
  | .error _ => db

/-- `SELECT status FROM orders WHERE id=?` (first matching row). -/
def findOrder (db : DB) (oid : Int) : Option OrderRow :=
  db.orders.find? (fun o => o.id == oid)

/-- How `assignOrderHandler`'s `UPDATE` rewrites the target row: status
`asignado` and the driver recorded; every other column kept. -/
def assignedRow (d : Int) (o : OrderRow) : OrderRow :=
  { o with status := "asignado", assignedDriverId := some d }

/-- How `updateOrderStatusHandler`'s `UPDATE` rewrites the target row: the new
status, plus `delivered_at = NOW()` exactly when the new status is
`entregado`; every other column kept. -/
def transitionedRow (st : String) (now : Int) (o : OrderRow) : OrderRow :=
  { o with status := st,
           deliveredAt := if st = "entregado" then some now else o.deliveredAt }

/-- The transition table of `updateOrderStatusHandler` (its `valid` map);
a status absent from the map — including the terminal `entregado` and
`cancelado` — has no legal successors. -/
def validNext : String → List String
  | "por_atender" => ["asignado", "cancelado"]
  | "asignado" => ["en_camino", "cancelado"]
  | "en_camino" => ["entregado"]
  | _ => []

/-- `updateOrderStatusHandler`: validate the request fields, read the current
status, check the transition table, then atomically update the status (and,
exactly when the new status is `entregado`, set `delivered_at=NOW()`) and
append the history row. -/
def updateOrderStatus (db : DB) (oid : Int) (req : UpdateStatusReq) (now : Int) :
    Except Err DB :=
  if req.newStatus = "" ∨ req.changedBy = 0 then
    .error (.validation "new_status y changed_by requeridos")
  else
    match findOrder db oid with
    | none => .error (.notFound "pedido no existe")
    | some o =>
      if req.newStatus ∈ validNext o.status then
        .ok { db with
              orders := db.orders.map (fun r =>
                if r.id = oid then transitionedRow req.newStatus now r else r),
              history := db.history ++
                [{ orderId := oid, oldStatus := some o.status,
                   newStatus := req.newStatus, changedBy := req.changedBy,
                   changedAt := now, note := req.note }] }
      else .error (.invalidTransition o.status req.newStatus)

/-- State left by `updateOrderStatusHandler` (rollback on error). -/
def runUpdateOrderStatus (db : DB) (oid : Int) (req : UpdateStatusReq) (now : Int) : DB :=
  match updateOrderStatus db oid req now with
  | .ok db' => db'
  | .error _ => db

/-- `assignOrderHandler`: require a driver id, read the current status, accept
only `por_atender`, then atomically set the driver and the status `asignado`
and append the history row. -/
def assignOrder (db : DB) (oid : Int) (req : AssignOrderReq) (now : Int) :
    Except Err DB :=
  if req.driverId = 0 then .error (.validation "driver_id requerido")
  else
    match findOrder db oid with
    | none => .error (.notFound "pedido no existe")
    | some o =>
      if o.status = "por_atender" then
        .ok { db with
              orders := db.orders.map (fun r =>
                if r.id = oid then assignedRow req.driverId r else r),
              history := db.history ++
                [{ orderId := oid, oldStatus := some o.status,
                   newStatus := "asignado", changedBy := req.driverId,
                   changedAt := now, note := some "Asignado a repartidor" }] }
      else .error .notAssignable

/-- State left by `assignOrderHandler` (rollback on error). -/
def runAssignOrder (db : DB) (oid : Int) (req : AssignOrderReq) (now : Int) : DB :=
  match assignOrder db oid req now with
  | .ok db' => db'
  | .error _ => db

/-- The `ON DUPLICATE KEY UPDATE` upsert on `customer_product_prices`: when a
row with the (customer, product) primary key exists, overwrite its `price` and
`is_active` (keeping `created_at`); otherwise insert a fresh row. -/
def upsertCPP (l : List CustomerPrice) (cid pid : Int) (price : Int)
    (active : Bool) (now : Int) : List CustomerPrice :=
  if l.any (fun r => r.customerId == cid && r.productId == pid) then
    l.map (fun r =>
      if r.customerId == cid && r.productId == pid then
        { r with price := price, isActive := active }
      else r)
  else l ++ [{ customerId := cid, productId := pid, price := price,
               isActive := active, createdAt := now }]

/-- `upsertCustomerPriceHandler`: require both ids, default `is_active` to
true, check the product and the customer exist (`SELECT COUNT(1)` — existence
only, activity not required), then upsert. -/
def upsertCustomerPrice (db : DB) (req : UpsertCustomerPriceReq) (now : Int) :
    Except Err DB :=
  if req.customerId = 0 ∨ req.productId = 0 then
    .error (.validation "customer_id y product_id requeridos")
  else
    let active := req.isActive.getD true
    if db.products.countP (fun p => p.id == req.productId) = 0 then
      .error (.validation "product_id inválido")
    else if db.users.countP (fun u => u == req.customerId) = 0 then
      .error (.validation "customer_id inválido")
    else
      let cpps := upsertCPP db.customerPrices req.customerId req.productId
        req.price active now
      .ok { db with customerPrices := cpps }

/-- State left by `upsertCustomerPriceHandler`. -/
def runUpsertCustomerPrice (db : DB) (req : UpsertCustomerPriceReq) (now : Int) : DB :=
  match upsertCustomerPrice db req now with
  | .ok db' => db'
  | .error _ => db

/-- `deleteCustomerPriceHandler`: `DELETE FROM customer_product_prices WHERE
customer_id=? AND product_id=?` (no-op success when absent). -/
def deleteCustomerPrice (db : DB) (cid pid : Int) : DB :=
  { db with customerPrices :=
      db.customerPrices.filter (fun r => !(r.customerId == cid && r.productId == pid)) }

/-- `createProductHandler`: insert with `is_active` defaulting to true. -/
def createProduct (db : DB) (req : CreateProductReq) : DB × Int :=
  let p : Product :=
    { id := db.nextProductId, name := req.name,
      capacityLiters := req.capacityLiters, price := req.price,
      isActive := req.isActive.getD true }
  ({ db with products := db.products ++ [p],
             nextProductId := db.nextProductId + 1 }, p.id)

/-- `updateProductHandler`: full-row `UPDATE … WHERE id=?`, 404 when no row
matches. -/
def updateProduct (db : DB) (pid : Int) (req : CreateProductReq) : Except Err DB :=
  if db.products.any (fun p => p.id == pid) then
    .ok { db with products := db.products.map (fun p =>
            if p.id = pid then
              { p with name := req.name, capacityLiters := req.capacityLiters,
                       price := req.price, isActive := req.isActive.getD true }
            else p) }
  else .error (.notFound "producto no encontrado")

/-- `deleteProductHandler`: logical delete, `is_active=FALSE`. -/
def deleteProduct (db : DB) (pid : Int) : Except Err DB :=
  if db.products.any (fun p => p.id == pid) then
    .ok { db with products := db.products.map (fun p =>
            if p.id = pid then { p with isActive := false } else p) }
  else .error (.notFound "producto no encontrado")

/-- `createUserHandler`, reduced to what the core observes: a fresh user id. -/
def createUser (db : DB) : DB × Int :=
  ({ db with users := db.users ++ [db.nextUserId],
             nextUserId := db.nextUserId + 1 }, db.nextUserId)

/-- `listOrdersHandler`: customer filter takes precedence (the driver filter
is then never consulted), otherwise driver filter, otherwise the unfiltered
listing capped at `ORDER BY id DESC LIMIT 50`. -/
def listOrders (db : DB) (customerId driverId : Option Int) : List Order :=
  match customerId with
  | some cid =>
      (sortDescBy (fun o => o.id)
        (db.orders.filter (fun o => o.customerId == cid))).map orderToRead
  | none =>
    match driverId with
    | some did =>
        (sortDescBy (fun o => o.id)
          (db.orders.filter (fun o => o.assignedDriverId == some did))).map orderToRead
    | none => ((sortDescBy (fun o => o.id) db.orders).take 50).map orderToRead

/-- `getOrderHandler`: the order with computed total, and its items joined
with `products` with the computed `line_total` column. -/
def getOrder (db : DB) (oid : Int) : Except Err (Order × List OrderItemRead) :=
  match findOrder db oid with
  | none => .error (.notFound "no encontrado")
  | some o =>
      .ok (orderToRead o,
        (db.orderItems.filter (fun it => it.orderId == oid)).filterMap (fun it =>
          (db.products.find? (fun p => p.id == it.productId)).map (fun p =>
            { id := it.id, orderId := it.orderId, productId := it.productId,
              qty := it.qty, unitPrice := it.unitPrice,
              lineTotal := it.qty * it.unitPrice,
              productName := p.name, capacityLiters := p.capacityLiters })))

/-- `listOrderHistoryHandler`: history rows of one order, in insertion order. -/
def listOrderHistory (db : DB) (oid : Int) : List StatusHistory :=
  db.history.filter (fun h => h.orderId == oid)

/-- One state-mutating API call, for reachability arguments. -/
inductive Op where
  | createUser
  | createProduct (req : CreateProductReq)
  | updateProduct (pid : Int) (req : CreateProductReq)
  | deleteProduct (pid : Int)
  | upsertPrice (req : UpsertCustomerPriceReq) (now : Int)
  | deletePrice (cid pid : Int)
  | createOrder (req : CreateOrderReq) (now : Int)
  | assignOrder (oid : Int) (req : AssignOrderReq) (now : Int)
  | updateStatus (oid : Int) (req : UpdateStatusReq) (now : Int)
deriving DecidableEq

/-- Effect of one API call on the store (failed calls roll back). -/
def step (db : DB) : Op → DB
  | .createUser => (createUser db).1
  | .createProduct req => (createProduct db req).1
  | .updateProduct pid req =>
      match updateProduct db pid req with
      | .ok db' => db'
      | .error _ => db
  | .deleteProduct pid =>
      match deleteProduct db pid with
      | .ok db' => db'
      | .error _ => db
  | .upsertPrice req now => runUpsertCustomerPrice db req now
  | .deletePrice cid pid => deleteCustomerPrice db cid pid
  | .createOrder req now => runCreateOrder db req now
  | .assignOrder oid req now => runAssignOrder db oid req now
  | .updateStatus oid req now => runUpdateOrderStatus db oid req now

/-- The store after a sequence of API calls starting from the empty database. -/
def execOps (ops : List Op) : DB :=
  ops.foldl step initDB

/-- Sum of `qty * unit_price` over the rows of an `order_items` list that
belong to one order. -/
def itemsTotalL (items : List OrderItem) (oid : Int) : Int :=
  ((items.filter (fun it => it.orderId == oid)).map
    (fun it => it.qty * it.unitPrice)).sum

/-- Sum of `qty * unit_price` over the stored items of one order. -/
def itemsTotal (db : DB) (oid : Int) : Int :=
  itemsTotalL db.orderItems oid

/-! ### General list lemmas -/

theorem map_id_of_eq {α : Type} {l : List α} {f : α → α}
    (h : ∀ x ∈ l, f x = x) : l.map f = l := by
  induction l with
  | nil => rfl
  | cons a t ih =>
    simp only [List.map_cons]
    rw [h a (List.mem_cons_self a t), ih (fun x hx => h x (List.mem_cons_of_mem a hx))]

theorem key_inj_of_pairwise {α : Type} {key : α → Int} {l : List α}
    (hu : l.Pairwise (fun x y => key x ≠ key y)) {a b : α}
    (ha : a ∈ l) (hb : b ∈ l) (hk : key a = key b) : a = b := by
  induction l with
  | nil => cases ha
  | cons c t ih =>
    rw [List.pairwise_cons] at hu
    rcases List.mem_cons.mp ha with rfl | hat
    · rcases List.mem_cons.mp hb with rfl | hbt
      · rfl
      · exact absurd hk (hu.1 b hbt)
    · rcases List.mem_cons.mp hb with rfl | hbt
      · exact absurd hk.symm (hu.1 a hat)
      · exact ih hu.2 hat hbt

/-- In a list of products with pairwise-distinct ids, the activity-filtered
`WHERE id=? AND is_active=TRUE` lookup of an active member finds that member. -/
theorem find_product_active {l : List Product}
    (hu : l.Pairwise (fun x y => x.id ≠ y.id)) {p : Product}
    (hp : p ∈ l) (ha : p.isActive = true) :
    l.find? (fun q => q.id == p.id && q.isActive) = some p := by
  induction l with
  | nil => cases hp
  | cons c t ih =>
    rw [List.pairwise_cons] at hu
    rcases List.mem_cons.mp hp with rfl | hpt
    · simp [List.find?, ha]
    · have hne : c.id ≠ p.id := hu.1 p hpt
      have hpred : (c.id == p.id && c.isActive) = false := by
        simp [hne]
      rw [List.find?]
      simp only [hpred]
      exact ih hu.2 hpt

/-- Same, for the unfiltered `WHERE id=?` lookup. -/
theorem find_product_any {l : List Product}
    (hu : l.Pairwise (fun x y => x.id ≠ y.id)) {p : Product} (hp : p ∈ l) :
    l.find? (fun q => q.id == p.id) = some p := by
  induction l with
  | nil => cases hp
  | cons c t ih =>
    rw [List.pairwise_cons] at hu
    rcases List.mem_cons.mp hp with rfl | hpt
    · simp [List.find?]
    · have hne : c.id ≠ p.id := hu.1 p hpt
      have hpred : (c.id == p.id) = false := by simp [hne]
      rw [List.find?]
      simp only [hpred]
      exact ih hu.2 hpt

/-- Key uniqueness of the override table (its composite primary key). -/
@[reducible] def cppUnique (l : List CustomerPrice) : Prop :=
  l.Pairwise (fun x y => ¬(x.customerId = y.customerId ∧ x.productId = y.productId))

/-- Under key uniqueness, an active member row for (cid, pid) is exactly what
the `is_active = TRUE` join finds. -/
theorem findOverride_of_mem {l : List CustomerPrice} (hu : cppUnique l)
    {r : CustomerPrice} (hr : r ∈ l) (hc : r.customerId = cid)
    (hp : r.productId = pid) (ha : r.isActive = true) :
    findOverride l cid pid = some r := by
  induction l with
  | nil => cases hr
  | cons c t ih =>
    rw [cppUnique, List.pairwise_cons] at hu
    rcases List.mem_cons.mp hr with rfl | hrt
    · simp [findOverride, List.find?, hc, hp, ha]
    · unfold findOverride
      rw [List.find?]
      rcases hpred : (c.productId == pid && c.customerId == cid && c.isActive) with _ | _
      · exact ih hu.2 hrt
      · exfalso
        simp only [Bool.and_eq_true, beq_iff_eq] at hpred
        exact hu.1 r hrt ⟨hpred.1.2.trans hc.symm, hpred.1.1.trans hp.symm⟩

/-- When every row for (cid, pid) is inactive (in particular when there is no
such row), the `is_active = TRUE` join finds nothing. -/
theorem findOverride_none {l : List CustomerPrice}
    (h : ∀ r ∈ l, r.customerId = cid → r.productId = pid → r.isActive = false) :
    findOverride l cid pid = none := by
  refine List.find?_eq_none.mpr (fun r hr => ?_)
  intro hpred
  simp only [Bool.and_eq_true, beq_iff_eq] at hpred
  have := h r hr hpred.1.2 hpred.1.1
  rw [this] at hpred
  exact Bool.false_ne_true hpred.2

/-- Products with pairwise-distinct ids. -/
@[reducible] def productsUnique (db : DB) : Prop :=
  db.products.Pairwise (fun x y => x.id ≠ y.id)

/-- The two point reads of `createOrderHandler` agree whenever the
activity-checked one succeeds: the only difference between their queries is
the `p.is_active = TRUE` filter. -/
theorem resolveItem_of_resolveEffective {db : DB} (hu : productsUnique db)
    {cid pid : Int} {v : Int} (h : resolveEffectivePrice db cid pid = some v) :
    resolveItemUnitPrice db cid pid = some v := by
  unfold resolveEffectivePrice at h
  rcases hfind : db.products.find? (fun p => p.id == pid && p.isActive) with _ | p
  · rw [hfind] at h; cases h
  · rw [hfind] at h
    have hpred := List.find?_some hfind
    have hmem := List.mem_of_find?_eq_some hfind
    simp only [Bool.and_eq_true, beq_iff_eq] at hpred
    have : db.products.find? (fun q => q.id == p.id) = some p :=
      find_product_any hu hmem
    unfold resolveItemUnitPrice
    rw [hpred.1] at this
    rw [this]
    simpa using h

/-! ### Sorting lemmas -/

theorem perm_insertDescBy {α : Type} (key : α → Int) (a : α) (l : List α) :
    (insertDescBy key a l).Perm (a :: l) := by
  induction l with
  | nil => exact List.Perm.refl _
  | cons b t ih =>
    unfold insertDescBy
    by_cases h : key b ≤ key a
    · simp [h]
    · simp only [h, if_false]
      exact (ih.cons b).trans (List.Perm.swap a b t)

theorem perm_sortDescBy {α : Type} (key : α → Int) (l : List α) :
    (sortDescBy key l).Perm l := by
  induction l with
  | nil => exact List.Perm.refl _
  | cons a t ih =>
    exact (perm_insertDescBy key a (sortDescBy key t)).trans (ih.cons a)

theorem pairwise_insertDescBy {α : Type} (key : α → Int) (a : α) {l : List α}
    (h : l.Pairwise (fun x y => key y ≤ key x)) :
    (insertDescBy key a l).Pairwise (fun x y => key y ≤ key x) := by
  induction l with
  | nil => simp [insertDescBy]
  | cons b t ih =>
    rw [List.pairwise_cons] at h
    unfold insertDescBy
    by_cases hba : key b ≤ key a
    · simp only [hba, if_true]
      rw [List.pairwise_cons]
      refine ⟨fun x hx => ?_, List.pairwise_cons.mpr h⟩
      rcases List.mem_cons.mp hx with rfl | hxt
      · exact hba
      · exact (h.1 x hxt).trans hba
    · simp only [hba, if_false]
      rw [List.pairwise_cons]
      refine ⟨fun x hx => ?_, ih h.2⟩
      have hx' := (perm_insertDescBy key a t).mem_iff.mp hx
      rcases List.mem_cons.mp hx' with rfl | hxt
      · exact le_of_lt (lt_of_not_le hba)
      · exact h.1 x hxt

theorem sortDescBy_sorted {α : Type} (key : α → Int) (l : List α) :
    (sortDescBy key l).Pairwise (fun x y => key y ≤ key x) := by
  induction l with
  | nil => simp [sortDescBy]
  | cons a t ih => exact pairwise_insertDescBy key a ih

theorem perm_insertAscBy {α : Type} (key : α → Int) (a : α) (l : List α) :
    (insertAscBy key a l).Perm (a :: l) := by
  induction l with
  | nil => exact List.Perm.refl _
  | cons b t ih =>
    unfold insertAscBy
    by_cases h : key a ≤ key b
    · simp [h]
    · simp only [h, if_false]
      exact (ih.cons b).trans (List.Perm.swap a b t)

theorem perm_sortAscBy {α : Type} (key : α → Int) (l : List α) :
    (sortAscBy key l).Perm l := by
  induction l with
  | nil => exact List.Perm.refl _
  | cons a t ih =>
    exact (perm_insertAscBy key a (sortAscBy key t)).trans (ih.cons a)

/-! ### `UPDATE orders … WHERE id=?` lemmas -/

/-- `UPDATE … WHERE id=?` (as a map with an id guard) rewrites the row that
`SELECT … WHERE id=?` found, provided the update keeps the id. -/
theorem find?_map_update {l : List OrderRow} {oid : Int} (f : OrderRow → OrderRow)
    (hf : ∀ r, (f r).id = r.id) {o : OrderRow}
    (h : l.find? (fun r => r.id == oid) = some o) :
    (l.map (fun r => if r.id = oid then f r else r)).find? (fun r => r.id == oid)
      = some (f o) := by
  induction l with
  | nil => cases h
  | cons b t ih =>
    by_cases hbid : b.id = oid
    · have hbt : (b.id == oid) = true := by simp [hbid]
      rw [List.find?] at h
      simp only [hbt] at h
      injection h with hbo
      rw [← hbo]
      simp only [List.map_cons]
      rw [if_pos hbid]
      have hft : ((f b).id == oid) = true := by simp [hf b, hbid]
      rw [List.find?]
      simp only [hft]
    · have hbf : (b.id == oid) = false := by simp [hbid]
      rw [List.find?] at h
      simp only [hbf] at h
      simp only [List.map_cons]
      rw [if_neg hbid]
      rw [List.find?]
      simp only [hbf]
      exact ih h

/-- Rows with another id are untouched by the guarded map. -/
theorem mem_map_update {l : List OrderRow} {oid : Int} {f : OrderRow → OrderRow}
    {r : OrderRow} (hr : r ∈ l) (hne : r.id ≠ oid) :
    r ∈ l.map (fun x => if x.id = oid then f x else x) := by
  have : r = if r.id = oid then f r else r := by simp [hne]
  rw [this]
  exact List.mem_map_of_mem _ hr

/-! ### The two pricing loops of `createOrderHandler` -/

/-- If some requested item's activity-checked price read fails, the subtotal
loop aborts with an error. -/
theorem computeSubtotal_error_of_mem {db : DB} {cid : Int} {items : List OrderItemReq}
    {it : OrderItemReq} (hmem : it ∈ items)
    (hfail : resolveEffectivePrice db cid it.productId = none) :
    ∃ pid, computeSubtotal db cid items = Except.error pid := by
  induction items with
  | nil => cases hmem
  | cons a rest ih =>
    rcases List.mem_cons.mp hmem with rfl | hrest
    · refine ⟨it.productId, ?_⟩
      unfold computeSubtotal
      rw [hfail]
    · unfold computeSubtotal
      rcases hres : resolveEffectivePrice db cid a.productId with _ | v
      · exact ⟨a.productId, rfl⟩
      · rcases ih hrest with ⟨pid, herr⟩
        rw [herr]
        exact ⟨pid, rfl⟩

/-- When the subtotal loop succeeds, the item-insert loop succeeds too, its
items carry exactly the order id it was given, consecutive fresh row ids, and
unit prices whose weighted sum is the computed subtotal. -/
theorem buildItems_of_subtotal {db : DB} (hu : productsUnique db) {cid : Int}
    (oid : Int) :
    ∀ (items : List OrderItemReq) (s : Int) (nid : Int),
      computeSubtotal db cid items = Except.ok s →
      ∃ rows nid', buildItems db cid oid items nid = some (rows, nid') ∧
        ((rows.map (fun it => it.qty * it.unitPrice)).sum = s) ∧
        (∀ it ∈ rows, it.orderId = oid) := by
  intro items
  induction items with
  | nil =>
    intro s nid h
    unfold computeSubtotal at h
    cases h
    exact ⟨[], nid, rfl, by simp, by simp⟩
  | cons a rest ih =>
    intro s nid h
    unfold computeSubtotal at h
    rcases hres : resolveEffectivePrice db cid a.productId with _ | v
    · rw [hres] at h; cases h
    · rw [hres] at h
      rcases hrest : computeSubtotal db cid rest with pid | s'
      · rw [hrest] at h; cases h
      · rw [hrest] at h
        simp only [Except.map] at h
        cases h
        rcases ih s' (nid + 1) hrest with ⟨rows, nid', hb, hsum, hoid⟩
        refine ⟨{ id := nid, orderId := oid, productId := a.productId,
                  qty := a.qty, unitPrice := v } :: rows, nid', ?_, ?_, ?_⟩
        · unfold buildItems
          rw [resolveItem_of_resolveEffective hu hres, hb]
        · simp only [List.map_cons, List.sum_cons, hsum]
          ring
        · intro it hit
          rcases List.mem_cons.mp hit with rfl | hit'
          · rfl
          · exact hoid it hit'

/-! ### The reachable-state invariant -/

theorem itemsTotalL_append (l₁ l₂ : List OrderItem) (oid : Int) :
    itemsTotalL (l₁ ++ l₂) oid = itemsTotalL l₁ oid + itemsTotalL l₂ oid := by
  unfold itemsTotalL
  rw [List.filter_append, List.map_append, List.sum_append]

theorem itemsTotalL_of_none {l : List OrderItem} {oid : Int}
    (h : ∀ it ∈ l, it.orderId ≠ oid) : itemsTotalL l oid = 0 := by
  unfold itemsTotalL
  have : l.filter (fun it => it.orderId == oid) = [] := by
    rw [List.filter_eq_nil_iff]
    intro it hit
    simp [h it hit]
  rw [this]
  rfl

theorem itemsTotalL_of_all {l : List OrderItem} {oid : Int}
    (h : ∀ it ∈ l, it.orderId = oid) :
    itemsTotalL l oid = (l.map (fun it => it.qty * it.unitPrice)).sum := by
  unfold itemsTotalL
  have : l.filter (fun it => it.orderId == oid) = l := by
    rw [List.filter_eq_self]
    intro it hit
    simp [h it hit]
  rw [this]

/-- The invariant maintained by every API call: product ids are unique and
below the id counter, every persisted order's `subtotal` is the sum of its
items' `qty * unit_price` and its `delivery_fee` is 0, and order ids (of
orders and of item rows) stay below the order id counter. -/
structure Inv (db : DB) : Prop where
  prodUnique : productsUnique db
  prodLt : ∀ p ∈ db.products, p.id < db.nextProductId
  orderSub : ∀ o ∈ db.orders, o.subtotal = itemsTotal db o.id
  orderFee : ∀ o ∈ db.orders, o.deliveryFee = 0
  orderLt : ∀ o ∈ db.orders, o.id < db.nextOrderId
  itemLt : ∀ it ∈ db.orderItems, it.orderId < db.nextOrderId

theorem inv_initDB : Inv initDB := by
  refine ⟨?_, ?_, ?_, ?_, ?_, ?_⟩ <;> simp [initDB, productsUnique]

/-- Transitions (`assignOrder`, `updateOrderStatus`) rewrite order rows in
place without touching id, subtotal, or fee, and append history; the
invariant survives. -/
theorem inv_of_orders_map {db : DB} (hInv : Inv db) {f : OrderRow → OrderRow}
    (hid : ∀ r, (f r).id = r.id) (hsub : ∀ r, (f r).subtotal = r.subtotal)
    (hfee : ∀ r, (f r).deliveryFee = r.deliveryFee) (hist : List StatusHistory) :
    Inv { db with orders := db.orders.map f, history := hist } := by
  refine ⟨hInv.prodUnique, hInv.prodLt, ?_, ?_, ?_, hInv.itemLt⟩
  · intro o' ho'
    rcases List.mem_map.mp ho' with ⟨r, hr, rfl⟩
    rw [hid, hsub]
    exact hInv.orderSub r hr
  · intro o' ho'
    rcases List.mem_map.mp ho' with ⟨r, hr, rfl⟩
    rw [hfee]
    exact hInv.orderFee r hr
  · intro o' ho'
    rcases List.mem_map.mp ho' with ⟨r, hr, rfl⟩
    rw [hid]
    exact hInv.orderLt r hr

theorem inv_createOrder_ok {db : DB} {req : CreateOrderReq} {now : Int}
    {db' : DB} {oid : Int} (hInv : Inv db)
    (h : createOrder db req now = Except.ok (db', oid)) : Inv db' := by
  unfold createOrder at h
  by_cases hval : req.customerId = 0 ∨ req.addressId = 0 ∨ req.items = []
  · rw [if_pos hval] at h; cases h
  · rw [if_neg hval] at h
    rcases hsub : computeSubtotal db req.customerId req.items with pid | s
    · rw [hsub] at h; cases h
    · rw [hsub] at h
      dsimp only at h
      rcases hbuild : buildItems db req.customerId db.nextOrderId req.items
          db.nextOrderItemId with _ | rp
      · rw [hbuild] at h; cases h
      · rw [hbuild] at h
        rcases rp with ⟨rows, nid⟩
        dsimp only at h
        injection h with h2
        have hdb := congrArg Prod.fst h2
        simp only at hdb
        rcases buildItems_of_subtotal hInv.prodUnique db.nextOrderId req.items s
            db.nextOrderItemId hsub with ⟨rows', nid', hb', hsum', hoid'⟩
        rw [hbuild] at hb'
        injection hb' with hb2
        have hrows : rows' = rows := (congrArg Prod.fst hb2).symm
        rw [hrows] at hsum' hoid'
        rw [← hdb]
        have hrows_ne : ∀ it ∈ db.orderItems, it.orderId ≠ db.nextOrderId :=
          fun it hit => ne_of_lt (hInv.itemLt it hit)
        refine ⟨hInv.prodUnique, hInv.prodLt, ?_, ?_, ?_, ?_⟩
        · intro o ho
          dsimp only at ho ⊢
          rcases List.mem_append.mp ho with hold | hnew
          · have hlt := hInv.orderLt o hold
            have heq : itemsTotalL (db.orderItems ++ rows) o.id = itemsTotal db o.id := by
              rw [itemsTotalL_append]
              have h0 : itemsTotalL rows o.id = 0 :=
                itemsTotalL_of_none (fun it hit => by
                  rw [hoid' it hit]; exact (ne_of_lt hlt).symm)
              rw [h0, add_zero]
              rfl
            simp only [itemsTotal]
            rw [heq]
            exact hInv.orderSub o hold
          · rcases List.mem_singleton.mp hnew with rfl
            simp only [itemsTotal]
            rw [itemsTotalL_append, itemsTotalL_of_none hrows_ne,
                itemsTotalL_of_all hoid', hsum']
            simp
        · intro o ho
          dsimp only at ho ⊢
          rcases List.mem_append.mp ho with hold | hnew
          · exact hInv.orderFee o hold
          · rcases List.mem_singleton.mp hnew with rfl
            rfl
        · intro o ho
          dsimp only at ho ⊢
          rcases List.mem_append.mp ho with hold | hnew
          · have := hInv.orderLt o hold
            omega
          · rcases List.mem_singleton.mp hnew with rfl
            dsimp only
            omega
        · intro it hit
          dsimp only at hit ⊢
          rcases List.mem_append.mp hit with hold | hnew
          · have := hInv.itemLt it hold
            omega
          · rw [hoid' it hnew]
            omega

theorem pairwise_id_map_of_id {l : List Product} {f : Product → Product}
    (hid : ∀ p, (f p).id = p.id)
    (h : l.Pairwise (fun a b => a.id ≠ b.id)) :
    (l.map f).Pairwise (fun a b => a.id ≠ b.id) := by
  rw [List.pairwise_map]
  refine h.imp ?_
  intro a b hne
  rw [hid, hid]
  exact hne

theorem inv_step (db : DB) (hInv : Inv db) (op : Op) : Inv (step db op) := by
  cases op with
  | createUser =>
    exact ⟨hInv.prodUnique, hInv.prodLt, hInv.orderSub, hInv.orderFee,
           hInv.orderLt, hInv.itemLt⟩
  | createProduct req =>
    refine ⟨?_, ?_, hInv.orderSub, hInv.orderFee, hInv.orderLt, hInv.itemLt⟩
    · rw [productsUnique]
      simp only [step, createProduct]
      rw [List.pairwise_append]
      refine ⟨hInv.prodUnique, List.pairwise_singleton _ _, ?_⟩
      intro a ha b hb
      rcases List.mem_singleton.mp hb with rfl
      simp only
      exact ne_of_lt (hInv.prodLt a ha)
    · simp only [step, createProduct]
      intro p hp
      rcases List.mem_append.mp hp with hold | hnew
      · have := hInv.prodLt p hold
        omega
      · rcases List.mem_singleton.mp hnew with rfl
        simp only
        omega
  | updateProduct pid req =>
    simp only [step]
    rcases h : updateProduct db pid req with e | db'
    · exact hInv
    · unfold updateProduct at h
      by_cases hany : db.products.any (fun p => p.id == pid) = true
      · rw [if_pos hany] at h
        injection h with h2
        rw [← h2]
        have hid : ∀ p : Product,
            ((if p.id = pid then
                { p with name := req.name, capacityLiters := req.capacityLiters,
                         price := req.price, isActive := req.isActive.getD true }
              else p) : Product).id = p.id := by
          intro p
          by_cases hp : p.id = pid <;> simp [hp]
        refine ⟨pairwise_id_map_of_id hid hInv.prodUnique, ?_, hInv.orderSub,
                hInv.orderFee, hInv.orderLt, hInv.itemLt⟩
        intro p hp
        rcases List.mem_map.mp hp with ⟨q, hq, rfl⟩
        rw [hid]
        exact hInv.prodLt q hq
      · rw [if_neg hany] at h
        cases h
  | deleteProduct pid =>
    simp only [step]
    rcases h : deleteProduct db pid with e | db'
    · exact hInv
    · unfold deleteProduct at h
      by_cases hany : db.products.any (fun p => p.id == pid) = true
      · rw [if_pos hany] at h
        injection h with h2
        rw [← h2]
        have hid : ∀ p : Product,
            ((if p.id = pid then { p with isActive := false } else p) : Product).id
              = p.id := by
          intro p
          by_cases hp : p.id = pid <;> simp [hp]
        refine ⟨pairwise_id_map_of_id hid hInv.prodUnique, ?_, hInv.orderSub,
                hInv.orderFee, hInv.orderLt, hInv.itemLt⟩
        intro p hp
        rcases List.mem_map.mp hp with ⟨q, hq, rfl⟩
        rw [hid]
        exact hInv.prodLt q hq
      · rw [if_neg hany] at h
        cases h
  | upsertPrice req now =>
    simp only [step, runUpsertCustomerPrice]
    rcases h : upsertCustomerPrice db req now with e | db'
    · exact hInv
    · unfold upsertCustomerPrice at h
      by_cases h1 : req.customerId = 0 ∨ req.productId = 0
      · rw [if_pos h1] at h; cases h
      · rw [if_neg h1] at h
        by_cases h2 : db.products.countP (fun p => p.id == req.productId) = 0
        · rw [if_pos h2] at h; cases h
        · rw [if_neg h2] at h
          by_cases h3 : db.users.countP (fun u => u == req.customerId) = 0
          · rw [if_pos h3] at h; cases h
          · rw [if_neg h3] at h
            injection h with h4
            rw [← h4]
            exact ⟨hInv.prodUnique, hInv.prodLt, hInv.orderSub, hInv.orderFee,
                   hInv.orderLt, hInv.itemLt⟩
  | deletePrice cid pid =>
    exact ⟨hInv.prodUnique, hInv.prodLt, hInv.orderSub, hInv.orderFee,
           hInv.orderLt, hInv.itemLt⟩
  | createOrder req now =>
    simp only [step, runCreateOrder]
    rcases h : createOrder db req now with e | p
    · exact hInv
    · rcases p with ⟨db', oid⟩
      exact inv_createOrder_ok hInv h
  | assignOrder oid req now =>
    simp only [step, runAssignOrder]
    rcases h : assignOrder db oid req now with e | db'
    · exact hInv
    · dsimp only
      unfold assignOrder at h
      by_cases h1 : req.driverId = 0
      · rw [if_pos h1] at h; cases h
      · rw [if_neg h1] at h
        rcases h2 : findOrder db oid with _ | o
        · rw [h2] at h; cases h
        · rw [h2] at h
          dsimp only at h
          by_cases h3 : o.status = "por_atender"
          · rw [if_pos h3] at h
            injection h with h4
            rw [← h4]
            refine inv_of_orders_map hInv ?_ ?_ ?_ _
            · intro r
              by_cases hr : r.id = oid <;> simp [hr, assignedRow]
            · intro r
              by_cases hr : r.id = oid <;> simp [hr, assignedRow]
            · intro r
              by_cases hr : r.id = oid <;> simp [hr, assignedRow]
          · rw [if_neg h3] at h
            cases h
  | updateStatus oid req now =>
    simp only [step, runUpdateOrderStatus]
    rcases h : updateOrderStatus db oid req now with e | db'
    · exact hInv
    · dsimp only
      unfold updateOrderStatus at h
      by_cases h1 : req.newStatus = "" ∨ req.changedBy = 0
      · rw [if_pos h1] at h; cases h
      · rw [if_neg h1] at h
        rcases h2 : findOrder db oid with _ | o
        · rw [h2] at h; cases h
        · rw [h2] at h
          dsimp only at h
          by_cases h3 : req.newStatus ∈ validNext o.status
          · rw [if_pos h3] at h
            injection h with h4
            rw [← h4]
            refine inv_of_orders_map hInv ?_ ?_ ?_ _
            · intro r
              by_cases hr : r.id = oid <;> simp [hr, transitionedRow]
            · intro r
              by_cases hr : r.id = oid <;> simp [hr, transitionedRow]
            · intro r
              by_cases hr : r.id = oid <;> simp [hr, transitionedRow]
          · rw [if_neg h3] at h
            cases h

theorem inv_foldl (ops : List Op) :
    ∀ db : DB, Inv db → Inv (ops.foldl step db) := by
  induction ops with
  | nil => intro db h; exact h
  | cons op rest ih =>
    intro db h
    exact ih (step db op) (inv_step db h op)

/-- Every state reachable from the empty database by API calls satisfies the
invariant. -/
theorem inv_execOps (ops : List Op) : Inv (execOps ops) :=
  inv_foldl ops initDB inv_initDB

/-! ### Concrete stores used to instantiate the theorems on closed inputs -/

/-- An active product with base price 10. -/
def exProduct : Product :=
  { id := 1, name := "bidon 20L", capacityLiters := some 20, price := 10,
    isActive := true }

/-- An active override: customer 7 pays 8 for product 1. -/
def exOverride : CustomerPrice :=
  { customerId := 7, productId := 1, price := 8, isActive := true, createdAt := 0 }

/-- Store with one product, one active override, and one customer. -/
def exDB1 : DB :=
  { initDB with products := [exProduct], customerPrices := [exOverride],
                users := [7] }

/-- Store whose only product exists but is inactive (base price 5). -/
def cexProduct : Product :=
  { id := 1, name := "bidon viejo", capacityLiters := none, price := 5,
    isActive := false }

/-- Store with a single inactive product. -/
def cexDB : DB := { initDB with products := [cexProduct] }

/-! ### C1 — effective-price resolution -/

/-- C1: for every customer C and product P (the product existing and active,
so that resolution is defined), the shared `COALESCE(cpp.price, p.price)`
read returns the override price when an active override row exists for (C,P)
and the product's base price otherwise; in particular a row with
`is_active=false` is ignored.  Resolution is a pure read (it returns only a
price, never a modified store), so the inactive row remains in storage. -/
theorem resolveEffectivePrice_spec (db : DB) (cid : Int) (p : Product)
    (hu : productsUnique db) (hcpp : cppUnique db.customerPrices)
    (hp : p ∈ db.products) (hact : p.isActive = true) :
    (∀ r ∈ db.customerPrices, r.customerId = cid → r.productId = p.id →
        r.isActive = true → resolveEffectivePrice db cid p.id = some r.price)
    ∧ ((∀ r ∈ db.customerPrices, r.customerId = cid → r.productId = p.id →
        r.isActive = false) → resolveEffectivePrice db cid p.id = some p.price) := by
  have hfind : db.products.find? (fun q => q.id == p.id && q.isActive) = some p :=
    find_product_active hu hp hact
  constructor
  · intro r hr hc hpid hra
    unfold resolveEffectivePrice
    rw [hfind]
    show some (overlayPrice db cid p) = some r.price
    unfold overlayPrice
    rw [findOverride_of_mem hcpp hr hc hpid hra]
  · intro hnone
    unfold resolveEffectivePrice
    rw [hfind]
    show some (overlayPrice db cid p) = some p.price
    unfold overlayPrice
    rw [findOverride_none hnone]

/-- C1 witness: in `exDB1`, customer 7 gets the override price 8 for
product 1 (base price 10). -/
theorem resolveEffectivePrice_spec_witness :
    resolveEffectivePrice exDB1 7 1 = some 8 :=
  (resolveEffectivePrice_spec exDB1 7 exProduct (by decide) (by decide)
      (by decide) (by decide)).1 exOverride (by decide) rfl rfl rfl

/-! ### C5 — the bulk read and the two point reads -/

/-- C5 counterexample: on a store whose product 1 exists but is inactive, the
bulk listing omits the product and the activity-checked point read fails,
while the order-item point read (whose query has no `p.is_active=TRUE`
filter) still prices it — the call sites do not treat product activity
identically. -/
theorem priceReads_diverge_cex :
    resolveEffectivePrice cexDB 1 1 = none
    ∧ resolveItemUnitPrice cexDB 1 1 = some 5
    ∧ listProducts cexDB (some 1) = [] := by decide

/-- C5 as amended: the bulk read and the subtotal point read apply identical
logic (the bulk listing's per-row price is exactly what the activity-checked
point read returns), and the item point read applies the same override
precedence — it agrees with the activity-checked read whenever the latter is
defined — but omits the product-activity filter, so it also prices inactive
products. -/
theorem priceReads_agree (db : DB) (cid : Int) (hu : productsUnique db) :
    (∀ p ∈ listProducts db (some cid),
        resolveEffectivePrice db cid p.id = some p.price)
    ∧ (∀ pid v, resolveEffectivePrice db cid pid = some v →
        resolveItemUnitPrice db cid pid = some v) := by
  constructor
  · intro p hp
    unfold listProducts at hp
    have hp' := (perm_sortAscBy (fun q : Product => q.id) _).mem_iff.mp hp
    rcases List.mem_map.mp hp' with ⟨q, hq, rfl⟩
    have hqf := List.mem_filter.mp hq
    have hact : q.isActive = true := by simpa using hqf.2
    show resolveEffectivePrice db cid q.id = some (overlayPrice db cid q)
    unfold resolveEffectivePrice
    rw [find_product_active hu hqf.1 hact]
    rfl
  · intro pid v h
    exact resolveItem_of_resolveEffective hu h

/-- C5 amended witness: in `exDB1` (product 1 active, base 10, override 8 for
customer 7) the listing row for product 1 carries price 8, the
activity-checked read returns 8, and so does the item read. -/
theorem priceReads_agree_witness :
    resolveEffectivePrice exDB1 7 1 = some 8
    ∧ resolveItemUnitPrice exDB1 7 1 = some 8 := by
  have h := priceReads_agree exDB1 7 (by decide)
  have h1 := h.1 { exProduct with price := (8 : Int) } (by decide)
  exact ⟨h1, h.2 1 8 h1⟩

/-! ### C6 — createOrder validation -/

/-- Whether a handler outcome is the field-validation rejection. -/
def isValidationError {α : Type} : Except Err α → Bool
  | .error (.validation _) => true
  | _ => false

/-- C6 counterexample: a creation request whose only item has quantity 0 is
not rejected — `createOrderHandler` validates only `customer_id`,
`address_id` and non-emptiness of `items`, never the quantities — so the
order is created. -/
theorem createOrder_zero_qty_cex :
    ({ customerId := 7, addressId := 3,
       items := [{ productId := 1, qty := 0 }], scheduledAt := none,
       notes := none } : CreateOrderReq).items.any (fun it => it.qty ≤ 0) = true
    ∧ isValidationError (createOrder exDB1
        { customerId := 7, addressId := 3,
          items := [{ productId := 1, qty := 0 }], scheduledAt := none,
          notes := none } 0) = false
    ∧ (createOrder exDB1
        { customerId := 7, addressId := 3,
          items := [{ productId := 1, qty := 0 }], scheduledAt := none,
          notes := none } 0).isOk = true := by decide

/-- C6 as amended: `createOrder` rejects with a `ValidationError` before
performing any write whenever `customerId` or `addressId` is unset or the
items list is empty; item quantities are not validated (a non-positive
quantity is accepted, as the counterexample shows). -/
theorem createOrder_validation (db : DB) (req : CreateOrderReq) (now : Int)
    (h : req.customerId = 0 ∨ req.addressId = 0 ∨ req.items = []) :
    createOrder db req now =
      Except.error (Err.validation "customer_id, address_id e items requeridos")
    ∧ runCreateOrder db req now = db := by
  have h1 : createOrder db req now =
      Except.error (Err.validation "customer_id, address_id e items requeridos") := by
    unfold createOrder
    rw [if_pos h]
  refine ⟨h1, ?_⟩
  unfold runCreateOrder
  rw [h1]

/-- C6 amended witness: a request with `customerId = 0` is rejected and the
store is untouched. -/
theorem createOrder_validation_witness :
    createOrder exDB1
      { customerId := 0, addressId := 3, items := [{ productId := 1, qty := 2 }],
        scheduledAt := none, notes := none } 0 =
      Except.error (Err.validation "customer_id, address_id e items requeridos")
    ∧ runCreateOrder exDB1
      { customerId := 0, addressId := 3, items := [{ productId := 1, qty := 2 }],
        scheduledAt := none, notes := none } 0 = exDB1 :=
  createOrder_validation exDB1
    { customerId := 0, addressId := 3, items := [{ productId := 1, qty := 2 }],
      scheduledAt := none, notes := none } 0 (Or.inl rfl)

/-! ### C3 — atomicity of order creation -/

/-- C3: if resolving the effective price of any requested line item fails
(product absent or inactive), order creation returns no success and the store
after the call is exactly the store before it — no order header, no item row,
no history row. -/
theorem createOrder_atomic (db : DB) (req : CreateOrderReq) (now : Int)
    (it : OrderItemReq) (hmem : it ∈ req.items)
    (hfail : resolveEffectivePrice db req.customerId it.productId = none) :
    (∀ r, createOrder db req now ≠ Except.ok r)
    ∧ runCreateOrder db req now = db := by
  have herr : ∃ e, createOrder db req now = Except.error e := by
    unfold createOrder
    by_cases hval : req.customerId = 0 ∨ req.addressId = 0 ∨ req.items = []
    · rw [if_pos hval]
      exact ⟨_, rfl⟩
    · rw [if_neg hval]
      rcases computeSubtotal_error_of_mem hmem hfail with ⟨pid, he⟩
      rw [he]
      exact ⟨_, rfl⟩
  rcases herr with ⟨e, he⟩
  constructor
  · intro r hr
    rw [he] at hr
    cases hr
  · unfold runCreateOrder
    rw [he]

/-- C3 witness: ordering the nonexistent product 9 leaves `exDB1` exactly
unchanged. -/
theorem createOrder_atomic_witness :
    runCreateOrder exDB1
      { customerId := 7, addressId := 3, items := [{ productId := 9, qty := 2 }],
        scheduledAt := none, notes := none } 5 = exDB1 :=
  (createOrder_atomic exDB1
    { customerId := 7, addressId := 3, items := [{ productId := 9, qty := 2 }],
      scheduledAt := none, notes := none } 5 { productId := 9, qty := 2 }
    (by decide) (by decide)).2

/-! ### C4 — subtotal and total invariants -/

theorem findOrder_eq_some {db : DB} {oid : Int} {o : OrderRow}
    (h : findOrder db oid = some o) : o ∈ db.orders ∧ o.id = oid := by
  unfold findOrder at h
  exact ⟨List.mem_of_find?_eq_some h, by simpa using List.find?_some h⟩

/-- C4: in every state reachable by API calls from the empty store, every
persisted order's `subtotal` equals the sum of its items' `qty * unit_price`,
its stored `delivery_fee` is 0, and the `total` column computed by the order
read is `subtotal + delivery_fee`. -/
theorem orders_subtotal_total_spec (ops : List Op) :
    (∀ o ∈ (execOps ops).orders,
        o.subtotal = itemsTotal (execOps ops) o.id ∧ o.deliveryFee = 0)
    ∧ (∀ oid g items, getOrder (execOps ops) oid = Except.ok (g, items) →
        g.total = g.subtotal + g.deliveryFee ∧ g.deliveryFee = 0
        ∧ g.subtotal = itemsTotal (execOps ops) oid) := by
  have hInv := inv_execOps ops
  constructor
  · intro o ho
    exact ⟨hInv.orderSub o ho, hInv.orderFee o ho⟩
  · intro oid g items h
    unfold getOrder at h
    rcases hf : findOrder (execOps ops) oid with _ | o
    · rw [hf] at h
      cases h
    · rw [hf] at h
      dsimp only at h
      injection h with h2
      have hg : g = orderToRead o := (congrArg Prod.fst h2).symm
      rcases findOrder_eq_some hf with ⟨hmem, hoid⟩
      subst hg
      refine ⟨rfl, hInv.orderFee o hmem, ?_⟩
      show o.subtotal = _
      rw [← hoid]
      exact hInv.orderSub o hmem

/-- Two API calls: create a product (id 1, price 10) and an order of 3 units
for customer 7. -/
def wOps : List Op :=
  [Op.createProduct { name := "bidon", capacityLiters := none, price := 10,
                      isActive := some true },
   Op.createOrder { customerId := 7, addressId := 3,
                    items := [{ productId := 1, qty := 3 }],
                    scheduledAt := none, notes := none } 0]

/-- The order row those two calls persist. -/
def wOrder : OrderRow :=
  { id := 1, customerId := 7, addressId := 3, assignedDriverId := none,
    status := "por_atender", subtotal := 30, deliveryFee := 0, notes := none,
    scheduledAt := none, deliveredAt := none, createdAt := 0 }

/-- C4 witness: after `wOps`, the persisted order has subtotal 30 = 3 × 10 and
fee 0, as the invariant demands. -/
theorem orders_subtotal_total_witness :
    wOrder ∈ (execOps wOps).orders
    ∧ wOrder.subtotal = itemsTotal (execOps wOps) wOrder.id
    ∧ wOrder.deliveryFee = 0 := by
  have hm : wOrder ∈ (execOps wOps).orders := by decide
  have h := (orders_subtotal_total_spec wOps).1 wOrder hm
  exact ⟨hm, h.1, h.2⟩

/-! ### C2 — the status state machine -/

/-- C2: for every stored order and every well-formed request, `updateStatus`
succeeds exactly when the requested status is a legal successor of the
current one per the table `por_atender → {asignado, cancelado}`,
`asignado → {en_camino, cancelado}`, `en_camino → {entregado}`, with
`entregado` and `cancelado` terminal; any other request fails with an
`InvalidTransition` carrying both the current and the rejected status (its
rendered message names both), leaving the store — in particular the order's
status — unchanged. -/
theorem updateStatus_transition_spec (db : DB) (oid : Int)
    (req : UpdateStatusReq) (now : Int) (o : OrderRow)
    (hf : findOrder db oid = some o) (hns : req.newStatus ≠ "")
    (hcb : req.changedBy ≠ 0) :
    ((updateOrderStatus db oid req now).isOk = true
        ↔ req.newStatus ∈ validNext o.status)
    ∧ (req.newStatus ∉ validNext o.status →
        updateOrderStatus db oid req now =
          Except.error (Err.invalidTransition o.status req.newStatus)
        ∧ errMessage (Err.invalidTransition o.status req.newStatus)
            = "transición inválida " ++ o.status ++ " → " ++ req.newStatus
        ∧ runUpdateOrderStatus db oid req now = db)
    ∧ validNext "por_atender" = ["asignado", "cancelado"]
    ∧ validNext "asignado" = ["en_camino", "cancelado"]
    ∧ validNext "en_camino" = ["entregado"]
    ∧ validNext "entregado" = []
    ∧ validNext "cancelado" = [] := by
  have hval : ¬(req.newStatus = "" ∨ req.changedBy = 0) := by
    rintro (h | h)
    · exact hns h
    · exact hcb h
  refine ⟨?_, ?_, rfl, rfl, rfl, rfl, rfl⟩
  · unfold updateOrderStatus
    rw [if_neg hval, hf]
    dsimp only
    by_cases hmem : req.newStatus ∈ validNext o.status
    · rw [if_pos hmem]
      simpa [Except.isOk, Except.toBool] using hmem
    · rw [if_neg hmem]
      simpa [Except.isOk, Except.toBool] using hmem
  · intro hmem
    have herr : updateOrderStatus db oid req now =
        Except.error (Err.invalidTransition o.status req.newStatus) := by
      unfold updateOrderStatus
      rw [if_neg hval, hf]
      dsimp only
      rw [if_neg hmem]
    refine ⟨herr, rfl, ?_⟩
    unfold runUpdateOrderStatus
    rw [herr]

/-- An order already on the way (status `en_camino`). -/
def wOrder3 : OrderRow :=
  { id := 1, customerId := 7, addressId := 3, assignedDriverId := some 5,
    status := "en_camino", subtotal := 10, deliveryFee := 0, notes := none,
    scheduledAt := none, deliveredAt := none, createdAt := 0 }

/-- Store holding only `wOrder3`. -/
def wDB3 : DB := { initDB with orders := [wOrder3], nextOrderId := 2 }

/-- A request to cancel, by user 9. -/
def wReqCancel : UpdateStatusReq :=
  { newStatus := "cancelado", note := none, changedBy := 9 }

/-- A request to mark delivered, by user 9. -/
def wReqDel : UpdateStatusReq :=
  { newStatus := "entregado", note := none, changedBy := 9 }

/-- C2 witness: cancelling an `en_camino` order is rejected with the
`InvalidTransition` error naming both statuses and the store is unchanged. -/
theorem updateStatus_transition_witness :
    updateOrderStatus wDB3 1 wReqCancel 0 =
      Except.error (Err.invalidTransition "en_camino" "cancelado")
    ∧ runUpdateOrderStatus wDB3 1 wReqCancel 0 = wDB3 := by
  have h := (updateStatus_transition_spec wDB3 1 wReqCancel 0 wOrder3
    (by decide) (by decide) (by decide)).2.1 (by decide)
  exact ⟨h.1, h.2.2⟩

/-! ### C7 — driver assignment -/

/-- C7: `assignOrder` fails with `OrderNotFound` when no order with the id
exists; on an order whose status is not `por_atender` it fails with the
`InvalidTransition`-kind rejection and the store is unchanged; and on a
`por_atender` order it succeeds, the order moving to `asignado` with the
given driver in the assigned-driver field. -/
theorem assignOrder_spec (db : DB) (oid : Int) (req : AssignOrderReq)
    (now : Int) (hdrv : req.driverId ≠ 0) :
    (findOrder db oid = none →
        assignOrder db oid req now = Except.error (Err.notFound "pedido no existe"))
    ∧ (∀ o, findOrder db oid = some o → o.status ≠ "por_atender" →
        assignOrder db oid req now = Except.error Err.notAssignable
        ∧ Err.notAssignable.isInvalidTransition = true
        ∧ runAssignOrder db oid req now = db)
    ∧ (∀ o, findOrder db oid = some o → o.status = "por_atender" →
        ∃ db', assignOrder db oid req now = Except.ok db'
          ∧ findOrder db' oid = some (assignedRow req.driverId o)) := by
  refine ⟨?_, ?_, ?_⟩
  · intro hnone
    unfold assignOrder
    rw [if_neg hdrv, hnone]
  · intro o hf hstat
    have herr : assignOrder db oid req now = Except.error Err.notAssignable := by
      unfold assignOrder
      rw [if_neg hdrv, hf]
      dsimp only
      rw [if_neg hstat]
    refine ⟨herr, rfl, ?_⟩
    unfold runAssignOrder
    rw [herr]
  · intro o hf hstat
    rcases hres : assignOrder db oid req now with e | db'
    · exfalso
      unfold assignOrder at hres
      rw [if_neg hdrv, hf] at hres
      dsimp only at hres
      rw [if_pos hstat] at hres
      cases hres
    · refine ⟨db', rfl, ?_⟩
      unfold assignOrder at hres
      rw [if_neg hdrv, hf] at hres
      dsimp only at hres
      rw [if_pos hstat] at hres
      injection hres with h4
      rw [← h4]
      unfold findOrder at hf ⊢
      dsimp only
      exact find?_map_update (assignedRow req.driverId) (fun r => rfl) hf

/-- A pending order. -/
def wOrder2 : OrderRow :=
  { id := 1, customerId := 7, addressId := 3, assignedDriverId := none,
    status := "por_atender", subtotal := 10, deliveryFee := 0, notes := none,
    scheduledAt := none, deliveredAt := none, createdAt := 0 }

/-- Store holding only the pending `wOrder2`. -/
def wDB2 : DB := { initDB with orders := [wOrder2], nextOrderId := 2 }

/-- C7 witness: assigning driver 5 to the pending order 1 moves it to
`asignado` with driver 5 recorded. -/
theorem assignOrder_spec_witness :
    findOrder (runAssignOrder wDB2 1 { driverId := 5 } 0) 1 =
      some { wOrder2 with status := "asignado", assignedDriverId := some 5 } := by
  obtain ⟨db', h1, h2⟩ :=
    (assignOrder_spec wDB2 1 { driverId := 5 } 0 (by decide)).2.2 wOrder2
      (by decide) rfl
  unfold runAssignOrder
  rw [h1]
  exact h2

/-! ### C8 — delivered timestamp and frame -/

/-- C8: every successful `updateStatus` rewrites the target order to exactly
its old row with the new status and — precisely when the new status is
`entregado` — the delivered timestamp set to the current time (otherwise the
old timestamp is kept); no other field of the order changes, the item rows
are untouched, and other orders are carried over unchanged. -/
theorem updateStatus_delivered_frame (db : DB) (oid : Int)
    (req : UpdateStatusReq) (now : Int) (o : OrderRow) (db' : DB)
    (hf : findOrder db oid = some o)
    (h : updateOrderStatus db oid req now = Except.ok db') :
    findOrder db' oid = some (transitionedRow req.newStatus now o)
    ∧ db'.orderItems = db.orderItems
    ∧ ∀ r ∈ db.orders, r.id ≠ oid → r ∈ db'.orders := by
  unfold updateOrderStatus at h
  by_cases h1 : req.newStatus = "" ∨ req.changedBy = 0
  · rw [if_pos h1] at h
    cases h
  · rw [if_neg h1] at h
    rw [hf] at h
    dsimp only at h
    by_cases h3 : req.newStatus ∈ validNext o.status
    · rw [if_pos h3] at h
      injection h with h4
      rw [← h4]
      refine ⟨?_, rfl, ?_⟩
      · unfold findOrder at hf ⊢
        dsimp only
        exact find?_map_update (transitionedRow req.newStatus now) (fun r => rfl) hf
      · intro r hr hne
        dsimp only
        exact mem_map_update hr hne
    · rw [if_neg h3] at h
      cases h

/-- The store `wDB3` after delivering its `en_camino` order at time 7. -/
def wDB3' : DB :=
  { initDB with
      orders := [{ wOrder3 with status := "entregado", deliveredAt := some 7 }],
      history := [{ orderId := 1, oldStatus := some "en_camino",
                    newStatus := "entregado", changedBy := 9, changedAt := 7,
                    note := none }],
      nextOrderId := 2 }

/-- C8 witness: marking the `en_camino` order delivered at time 7 stores
exactly the old row with status `entregado` and delivered timestamp 7. -/
theorem updateStatus_delivered_frame_witness :
    findOrder (runUpdateOrderStatus wDB3 1 wReqDel 7) 1 =
      some { wOrder3 with status := "entregado", deliveredAt := some 7 } := by
  have hok : updateOrderStatus wDB3 1 wReqDel 7 = Except.ok wDB3' := by rfl
  have h := (updateStatus_delivered_frame wDB3 1 wReqDel 7 wOrder3 wDB3'
    (by decide) hok).1
  unfold runUpdateOrderStatus
  rw [hok]
  exact h

/-! ### C9 — idempotence of the override upsert -/

theorem upsertCPP_any (l : List CustomerPrice) (cid pid price : Int)
    (active : Bool) (now : Int) :
    (upsertCPP l cid pid price active now).any
      (fun r => r.customerId == cid && r.productId == pid) = true := by
  unfold upsertCPP
  by_cases hany : l.any (fun r => r.customerId == cid && r.productId == pid) = true
  · rw [if_pos hany]
    rcases List.any_eq_true.mp hany with ⟨x, hx, hkx⟩
    refine List.any_eq_true.mpr ⟨_, List.mem_map_of_mem _ hx, ?_⟩
    simp [hkx]
  · rw [if_neg hany]
    refine List.any_eq_true.mpr
      ⟨_, List.mem_append_right _ (List.mem_singleton_self _), ?_⟩
    simp

theorem upsertCPP_key_vals (l : List CustomerPrice) (cid pid price : Int)
    (active : Bool) (now : Int) :
    ∀ r ∈ upsertCPP l cid pid price active now,
      (r.customerId == cid && r.productId == pid) = true →
      r.price = price ∧ r.isActive = active := by
  intro r hr hk
  unfold upsertCPP at hr
  by_cases hany : l.any (fun r => r.customerId == cid && r.productId == pid) = true
  · rw [if_pos hany] at hr
    rcases List.mem_map.mp hr with ⟨q, hq, rfl⟩
    by_cases hkq : (q.customerId == cid && q.productId == pid) = true
    · rw [if_pos hkq]
      exact ⟨rfl, rfl⟩
    · rw [if_neg hkq] at hk
      exact absurd hk hkq
  · rw [if_neg hany] at hr
    rcases List.mem_append.mp hr with hql | hnew
    · exfalso
      exact hany (List.any_eq_true.mpr ⟨r, hql, hk⟩)
    · rcases List.mem_singleton.mp hnew with rfl
      exact ⟨rfl, rfl⟩

/-- When every row for the key already stores exactly the submitted values,
the `ON DUPLICATE KEY UPDATE` upsert is the identity on the table. -/
theorem upsertCPP_eq_self (l : List CustomerPrice) (cid pid price : Int)
    (active : Bool) (now : Int)
    (hany : l.any (fun r => r.customerId == cid && r.productId == pid) = true)
    (hvals : ∀ r ∈ l, (r.customerId == cid && r.productId == pid) = true →
        r.price = price ∧ r.isActive = active) :
    upsertCPP l cid pid price active now = l := by
  unfold upsertCPP
  rw [if_pos hany]
  apply map_id_of_eq
  intro r hr
  by_cases hk : (r.customerId == cid && r.productId == pid) = true
  · rw [if_pos hk]
    rcases hvals r hr hk with ⟨hp, ha⟩
    cases r
    simp only at hp ha
    rw [hp, ha]
  · rw [if_neg hk]

/-- The upsert leaves the key's row count unchanged when a row existed and
creates exactly one row otherwise. -/
theorem upsertCPP_countP (l : List CustomerPrice) (cid pid price : Int)
    (active : Bool) (now : Int) :
    (upsertCPP l cid pid price active now).countP
        (fun r => r.customerId == cid && r.productId == pid)
      = if l.countP (fun r => r.customerId == cid && r.productId == pid) = 0
        then 1
        else l.countP (fun r => r.customerId == cid && r.productId == pid) := by
  unfold upsertCPP
  by_cases hany : l.any (fun r => r.customerId == cid && r.productId == pid) = true
  · rw [if_pos hany]
    have hne : l.countP (fun r => r.customerId == cid && r.productId == pid) ≠ 0 := by
      rcases List.any_eq_true.mp hany with ⟨x, hx, hkx⟩
      intro h0
      exact (List.countP_eq_zero.mp h0 x hx) hkx
    rw [if_neg hne, List.countP_map]
    apply List.countP_congr
    intro x hx
    by_cases hkx : (x.customerId == cid && x.productId == pid) = true
    · simp [Function.comp, hkx]
    · simp [Function.comp, hkx]
  · rw [if_neg hany]
    have h0 : l.countP (fun r => r.customerId == cid && r.productId == pid) = 0 :=
      List.countP_eq_zero.mpr
        (fun x hx hc => hany (List.any_eq_true.mpr ⟨x, hx, hc⟩))
    rw [List.countP_append, h0]
    simp

/-- C9: when an `upsertOverride` call succeeds, re-submitting the identical
arguments succeeds and returns the very same store — so row contents, the
key's row count, and every resolved effective price are unchanged — and the
upsert never leaves more than one row for the (customer, product) key: the
key's count after the call is 1 when it was 0 and is preserved otherwise. -/
theorem upsertOverride_idempotent (db : DB) (req : UpsertCustomerPriceReq)
    (now now' : Int) (db' : DB)
    (h : upsertCustomerPrice db req now = Except.ok db') :
    upsertCustomerPrice db' req now' = Except.ok db'
    ∧ db'.customerPrices.countP
        (fun r => r.customerId == req.customerId && r.productId == req.productId)
      = (if db.customerPrices.countP
            (fun r => r.customerId == req.customerId && r.productId == req.productId) = 0
         then 1
         else db.customerPrices.countP
            (fun r => r.customerId == req.customerId && r.productId == req.productId))
    ∧ (db.customerPrices.countP
          (fun r => r.customerId == req.customerId && r.productId == req.productId) ≤ 1 →
        db'.customerPrices.countP
          (fun r => r.customerId == req.customerId && r.productId == req.productId) = 1)
    ∧ (∀ c p, resolveEffectivePrice (runUpsertCustomerPrice db' req now') c p
          = resolveEffectivePrice db' c p) := by
  unfold upsertCustomerPrice at h
  by_cases h1 : req.customerId = 0 ∨ req.productId = 0
  · rw [if_pos h1] at h
    cases h
  · rw [if_neg h1] at h
    dsimp only at h
    by_cases h2 : db.products.countP (fun p => p.id == req.productId) = 0
    · rw [if_pos h2] at h
      cases h
    · rw [if_neg h2] at h
      by_cases h3 : db.users.countP (fun u => u == req.customerId) = 0
      · rw [if_pos h3] at h
        cases h
      · rw [if_neg h3] at h
        injection h with h4
        have hsecond : upsertCustomerPrice db' req now' = Except.ok db' := by
          rw [← h4]
          unfold upsertCustomerPrice
          rw [if_neg h1]
          dsimp only
          rw [if_neg h2, if_neg h3]
          rw [upsertCPP_eq_self _ _ _ _ _ _
            (upsertCPP_any db.customerPrices req.customerId req.productId
              req.price (req.isActive.getD true) now)
            (upsertCPP_key_vals db.customerPrices req.customerId req.productId
              req.price (req.isActive.getD true) now)]
        refine ⟨hsecond, ?_, ?_, ?_⟩
        · rw [← h4]
          exact upsertCPP_countP db.customerPrices req.customerId req.productId
            req.price (req.isActive.getD true) now
        · intro hle
          rw [← h4]
          rw [upsertCPP_countP db.customerPrices req.customerId req.productId
            req.price (req.isActive.getD true) now]
          by_cases hc : db.customerPrices.countP
              (fun r => r.customerId == req.customerId
                && r.productId == req.productId) = 0
          · rw [if_pos hc]
          · rw [if_neg hc]
            omega
        · intro c p
          unfold runUpsertCustomerPrice
          rw [hsecond]

/-- The upsert request: price 9 for customer 7 on product 1, active. -/
def wReq9 : UpsertCustomerPriceReq :=
  { customerId := 7, productId := 1, price := 9, isActive := some true }

/-- Store with product 1 and customer 7 and no override yet. -/
def wDB9 : DB := { initDB with products := [exProduct], users := [7] }

/-- `wDB9` after the upsert at time 4. -/
def wDB9x : DB :=
  { wDB9 with customerPrices :=
      [{ customerId := 7, productId := 1, price := 9, isActive := true,
         createdAt := 4 }] }

/-- C9 witness: the first upsert creates the row; re-submitting the identical
request (at a different time) returns the very same store. -/
theorem upsertOverride_idempotent_witness :
    upsertCustomerPrice wDB9 wReq9 4 = Except.ok wDB9x
    ∧ upsertCustomerPrice wDB9x wReq9 11 = Except.ok wDB9x := by
  have h1 : upsertCustomerPrice wDB9 wReq9 4 = Except.ok wDB9x := by rfl
  exact ⟨h1, (upsertOverride_idempotent wDB9 wReq9 4 11 wDB9x h1).1⟩

/-! ### C10 — order listing -/

/-- C10: with neither filter, `listOrders` returns `min 50 n` orders, sorted
by descending id, and every stored order left out has an id no greater than
every id returned (the listing is the 50 highest ids); with a customer
filter, the driver filter is never consulted, all matching orders are
returned (no cap), and each matching order appears in the result. -/
theorem listOrders_spec (db : DB) :
    (listOrders db none none).length = min 50 db.orders.length
    ∧ (listOrders db none none).Pairwise (fun a b => b.id ≤ a.id)
    ∧ (∀ o ∈ db.orders, (∀ r ∈ listOrders db none none, r.id ≠ o.id) →
        ∀ r ∈ listOrders db none none, o.id ≤ r.id)
    ∧ (∀ cid d d', listOrders db (some cid) d = listOrders db (some cid) d')
    ∧ (∀ cid d, (listOrders db (some cid) d).length
        = (db.orders.filter (fun o => o.customerId == cid)).length)
    ∧ (∀ cid d o, o ∈ db.orders → o.customerId = cid →
        orderToRead o ∈ listOrders db (some cid) d) := by
  refine ⟨?_, ?_, ?_, ?_, ?_, ?_⟩
  · show (((sortDescBy (fun q : OrderRow => q.id) db.orders).take 50).map
        orderToRead).length = _
    rw [List.length_map, List.length_take,
        (perm_sortDescBy (fun q : OrderRow => q.id) db.orders).length_eq]
  · show (((sortDescBy (fun q : OrderRow => q.id) db.orders).take 50).map
        orderToRead).Pairwise _
    rw [List.pairwise_map]
    have hs := sortDescBy_sorted (fun q : OrderRow => q.id) db.orders
    exact (hs.sublist (List.take_sublist 50 _)).imp (fun h => h)
  · intro o ho hnot r hr
    rcases List.mem_map.mp hr with ⟨x, hx, rfl⟩
    have hmem : o ∈ sortDescBy (fun q : OrderRow => q.id) db.orders :=
      (perm_sortDescBy (fun q : OrderRow => q.id) db.orders).mem_iff.mpr ho
    rw [← List.take_append_drop 50
      (sortDescBy (fun q : OrderRow => q.id) db.orders)] at hmem
    rcases List.mem_append.mp hmem with htk | hdp
    · exact absurd rfl (hnot (orderToRead o) (List.mem_map_of_mem _ htk))
    · have hs := sortDescBy_sorted (fun q : OrderRow => q.id) db.orders
      rw [← List.take_append_drop 50
        (sortDescBy (fun q : OrderRow => q.id) db.orders)] at hs
      exact (List.pairwise_append.mp hs).2.2 x hx o hdp
  · intro cid d d'
    rfl
  · intro cid d
    show ((sortDescBy (fun q : OrderRow => q.id)
        (db.orders.filter (fun o => o.customerId == cid))).map orderToRead).length = _
    rw [List.length_map,
        (perm_sortDescBy (fun q : OrderRow => q.id) _).length_eq]
  · intro cid d o ho hc
    show orderToRead o ∈ (sortDescBy (fun q : OrderRow => q.id)
        (db.orders.filter (fun q => q.customerId == cid))).map orderToRead
    apply List.mem_map_of_mem
    apply (perm_sortDescBy (fun q : OrderRow => q.id) _).mem_iff.mpr
    exact List.mem_filter.mpr ⟨ho, by simp [hc]⟩

/-- An order of customer 7. -/
def w10a : OrderRow :=
  { id := 1, customerId := 7, addressId := 3, assignedDriverId := none,
    status := "por_atender", subtotal := 10, deliveryFee := 0, notes := none,
    scheduledAt := none, deliveredAt := none, createdAt := 0 }

/-- An order of customer 8. -/
def w10b : OrderRow :=
  { id := 2, customerId := 8, addressId := 4, assignedDriverId := some 5,
    status := "asignado", subtotal := 20, deliveryFee := 0, notes := none,
    scheduledAt := none, deliveredAt := none, createdAt := 0 }

/-- Store with the two orders. -/
def wDB10 : DB := { initDB with orders := [w10a, w10b], nextOrderId := 3 }

/-- C10 witness: filtering on customer 7 returns customer 7's order whatever
the driver filter is, and the unfiltered listing has `min 50 2` elements. -/
theorem listOrders_spec_witness :
    orderToRead w10a ∈ listOrders wDB10 (some 7) (some 99)
    ∧ (listOrders wDB10 none none).length = min 50 wDB10.orders.length := by
  have h := listOrders_spec wDB10
  exact ⟨h.2.2.2.2.2 7 (some 99) w10a (by decide) rfl, h.1⟩

end Aqua
